import Mathlib

/-!
Verification of the HandsOnOllama retrieval-augmented-generation pipeline.

This development shallowly embeds the orchestration code of the repository:
`utils.py` (PDF ingestion and chunking), `vector_db.py` (build-or-load of the
persisted Chroma collection), `retriever.py` (multi-query retrieval) and
`chain.py` / `doc_assist/chain.py` (the answer chain), together with the parts
of the externally delegated behaviour that the specification fixes.  Stateful
code is embedded as explicit state passing over a `VState` record; fallible
code returns `Except`/`Option` values mirroring the Python exceptions and
`None` returns.
-/

set_option maxRecDepth 16384

namespace HandsOnOllama

/-- A text unit produced by PDF ingestion: page content together with the
source metadata (source path and page number) that the pipeline reads from a
langchain Document. -/
structure Document where
  text : String
  source : String
  page : Nat
deriving DecidableEq

/-- A bounded-length piece of a Document's text, inheriting the source
Document's metadata; the unit stored in and retrieved from the vector store. -/
structure Chunk where
  text : String
  source : String
  page : Nat
deriving DecidableEq

/-- Python exception kinds visible to the orchestration code. -/
inductive PyErr where
  | fileNotFound
  | ioError
  | valueError
  | otherError
deriving DecidableEq

/-- The external world as seen by the pipeline: the filesystem existence test,
the PDF loader (which may raise), and whether the embedding-model pull and the
embedding computation succeed. -/
structure Env where
  fsExists : String → Bool
  loaderLoad : String → Except PyErr (List Document)
  pullOk : Bool
  embedOk : Bool

/-- The chunk_size=1200 argument passed to the text splitter in utils.py. -/
def CHUNK_SIZE : Nat := 1200

/-- The chunk_overlap=300 argument passed to the text splitter in utils.py. -/
def CHUNK_OVERLAP : Nat := 300

/-- Modelled from the spec: the splitting algorithm itself lives in the
external langchain RecursiveCharacterTextSplitter, which is not under src/;
utils.py only instantiates it with chunk_size=1200 and chunk_overlap=300.  The
spec describes a splitter that falls back to hard character cuts such that no
chunk exceeds maxSize characters and consecutive chunks share up to overlap
characters of context.  The model takes maxSize-character windows advancing by
maxSize - overlap characters: text at most maxSize long is a single chunk,
otherwise the first maxSize characters form a chunk and splitting continues
overlap characters before the end of that chunk. -/
def splitText (maxSize overlap : Nat) (s : List Char) : List (List Char) :=
  if h : s.length ≤ maxSize ∨ maxSize ≤ overlap then [s]
  else s.take maxSize :: splitText maxSize overlap (s.drop (maxSize - overlap))
termination_by s.length
decreasing_by
  push_neg at h
  simp only [List.length_drop]
  omega

/-- Concatenate a chunk list back into one text, removing the declared overlap
from the front of every chunk after the first. -/
def joinChunksWithOverlapRemoved (overlap : Nat) : List (List Char) → List Char
  | [] => []
  | c :: cs => c ++ (cs.map (List.drop overlap)).flatten

namespace Utils

/-- split_documents from src/utils.py: split each document's text with the
configured chunk size and overlap; every chunk inherits its source document's
metadata. -/
def split_documents (documents : List Document) : List Chunk :=
  (documents.map fun d =>
    (splitText CHUNK_SIZE CHUNK_OVERLAP d.text.data).map fun c =>
      { text := String.mk c, source := d.source, page := d.page }).flatten

/-- ingest_pdf from src/utils.py: when the path exists, return whatever the
loader produces (a loader exception propagates uncaught); when the path does
not exist, log and return the empty list rather than raising. -/
def ingest_pdf (env : Env) (doc_path : String) : Except PyErr (List Document) :=
  if env.fsExists doc_path then env.loaderLoad doc_path else Except.ok []

end Utils

namespace DocAssist

/-- ingest_pdf from src/doc_assist/utils.py: as in utils.py, but a loader
failure of kind IOError or ValueError is caught and yields the empty list. -/
def ingest_pdf (env : Env) (doc_path : String) : Except PyErr (List Document) :=
  if env.fsExists doc_path then
    match env.loaderLoad doc_path with
    | Except.ok data => Except.ok data
    | Except.error e =>
        if e = PyErr.ioError ∨ e = PyErr.valueError then Except.ok []
        else Except.error e
  else Except.ok []

end DocAssist

section ChunkerLemmas

/-- The guard of `splitText` simplifies when the overlap is below the size. -/
theorem splitText_eq_of_overlap_lt (m o : Nat) (ho : o < m) (s : List Char) :
    splitText m o s =
      if s.length ≤ m then [s]
      else s.take m :: splitText m o (s.drop (m - o)) := by
  rw [splitText]
  have hmo : ¬ m ≤ o := Nat.not_le_of_lt ho
  by_cases hs : s.length ≤ m
  · simp [hs]
  · simp [hs, hmo]

/-- Every chunk produced by `splitText` has length at most the maximum. -/
theorem splitText_length_le (m o : Nat) (ho : o < m) (s : List Char) :
    ∀ c ∈ splitText m o s, c.length ≤ m := by
  rw [splitText_eq_of_overlap_lt m o ho]
  by_cases hs : s.length ≤ m
  · simp only [hs, if_pos]
    intro c hc
    rw [List.mem_singleton] at hc
    subst hc
    exact hs
  · simp only [hs, if_neg, not_false_iff]
    intro c hc
    rcases List.mem_cons.mp hc with h | h
    · subst h
      simp [List.length_take]
    · exact splitText_length_le m o ho (s.drop (m - o)) _ h
termination_by s.length
decreasing_by
  simp only [List.length_drop]
  omega

/-- Splitting text no longer than the maximum yields exactly one chunk: the
text itself. -/
theorem splitText_short (m o : Nat) (s : List Char) (hs : s.length ≤ m) :
    splitText m o s = [s] := by
  rw [splitText]
  simp [hs]

/-- Consecutive chunks produced by `splitText` share exactly `o` characters of
context: the final `o` characters of each chunk are the first `o` characters
of the next one. -/
theorem splitText_chain_overlap (m o : Nat) (ho : o < m) (s : List Char) :
    List.Chain'
      (fun a b => a.drop (m - o) = b.take o ∧ (a.drop (m - o)).length = o)
      (splitText m o s) := by
  rw [splitText_eq_of_overlap_lt m o ho]
  by_cases hs : s.length ≤ m
  · simp [hs]
  · simp only [hs, if_neg, not_false_iff]
    push_neg at hs
    have hrec := splitText_chain_overlap m o ho (s.drop (m - o))
    refine List.chain'_cons'.mpr ⟨?_, hrec⟩
    intro b hb
    have hhead : b = (s.drop (m - o)).take m ∨ b = s.drop (m - o) := by
      rw [splitText_eq_of_overlap_lt m o ho] at hb
      by_cases ht : (s.drop (m - o)).length ≤ m
      · right
        simp only [ht, if_pos] at hb
        simpa [eq_comm] using hb
      · left
        simp only [ht, if_neg, not_false_iff] at hb
        simpa [eq_comm] using hb
    have htake : (s.take m).drop (m - o) = (s.drop (m - o)).take o := by
      rw [List.drop_take]
      congr 1
      omega
    have hlen : ((s.take m).drop (m - o)).length = o := by
      simp only [List.length_drop, List.length_take]
      omega
    rcases hhead with h | h
    · subst h
      constructor
      · rw [htake, List.take_take]
        congr 1
        omega
      · exact hlen
    · subst h
      exact ⟨htake, hlen⟩
termination_by s.length
decreasing_by
  simp only [List.length_drop]
  omega

/-- Dropping the overlap from every chunk and concatenating recovers the text
with its first `o` characters removed. -/
theorem splitText_map_drop_join (m o : Nat) (ho : o < m) (s : List Char) :
    ((splitText m o s).map (List.drop o)).flatten = s.drop o := by
  rw [splitText_eq_of_overlap_lt m o ho]
  by_cases hs : s.length ≤ m
  · simp [hs]
  · simp only [hs, if_neg, not_false_iff, List.map_cons, List.flatten_cons]
    push_neg at hs
    have hrec := splitText_map_drop_join m o ho (s.drop (m - o))
    rw [hrec]
    have hdd : (s.drop (m - o)).drop o = s.drop m := by
      rw [List.drop_drop]
      congr 1
      omega
    have hdt : (s.take m).drop o = (s.drop o).take (m - o) := by
      rw [List.drop_take]
    rw [hdd, hdt]
    calc (s.drop o).take (m - o) ++ s.drop m
        = (s.drop o).take (m - o) ++ (s.drop o).drop (m - o) := by
          rw [List.drop_drop]
          congr 2
          omega
      _ = s.drop o := List.take_append_drop _ _
termination_by s.length
decreasing_by
  simp only [List.length_drop]
  omega

/-- Reconstruction: concatenating the chunks of `splitText` with the overlap
removed from every chunk after the first yields the original text. -/
theorem splitText_reconstruct (m o : Nat) (ho : o < m) (s : List Char) :
    joinChunksWithOverlapRemoved o (splitText m o s) = s := by
  rw [splitText_eq_of_overlap_lt m o ho]
  by_cases hs : s.length ≤ m
  · simp [hs, joinChunksWithOverlapRemoved]
  · simp only [hs, if_neg, not_false_iff, joinChunksWithOverlapRemoved]
    rw [splitText_map_drop_join m o ho]
    have hdd : (s.drop (m - o)).drop o = s.drop m := by
      rw [List.drop_drop]
      congr 1
      omega
    rw [hdd, List.take_append_drop]

end ChunkerLemmas

/-- The persistent state touched by vector_db.py: which persist directories
exist on disk, the persisted collections (name to stored chunks), and a count
of chunk-embedding computations performed so far. -/
structure VState where
  dirs : List String
  collections : List (String × List Chunk)
  embedCalls : Nat
deriving DecidableEq

/-- The value returned by a successful build or load: a Chroma handle bound to
a collection name and its persist directory. -/
structure ChromaHandle where
  collectionName : String
  persistDirectory : String
deriving DecidableEq

/-- os.path.join("chroma_db", vector_store_name) in vector_db.py. -/
def persistDir (vector_store_name : String) : String :=
  "chroma_db/" ++ vector_store_name

/-- create_or_load_vector_db from src/vector_db.py.  Inside a try/except that
turns any exception into a None return: pull the embedding model; resolve the
persist directory from the collection name; if it exists, open the persisted
collection as a handle (no ingestion, no chunking, no embedding); otherwise
ingest the PDF (empty data returns None), split it into chunks, and build and
persist a new collection from the chunks (Chroma.from_documents embeds every
chunk; its internals are not under src/, and per the spec a failing build
aborts without persisting, so a failed embedding leaves the state unchanged). -/
def create_or_load_vector_db (env : Env) (st : VState)
    (file_path vector_store_name : String) : VState × Option ChromaHandle :=
  if env.pullOk then
    if st.dirs.contains (persistDir vector_store_name) then
      (st, some ⟨vector_store_name, persistDir vector_store_name⟩)
    else
      match Utils.ingest_pdf env file_path with
      | Except.error _ => (st, none)
      | Except.ok data =>
          if data.isEmpty then (st, none)
          else
            let chunks := Utils.split_documents data
            if env.embedOk then
              ({ dirs := persistDir vector_store_name :: st.dirs,
                 collections := (vector_store_name, chunks) :: st.collections,
                 embedCalls := st.embedCalls + chunks.length },
               some ⟨vector_store_name, persistDir vector_store_name⟩)
            else (st, none)
  else (st, none)

/-- upload_and_process_pdf from src/vector_db.py, for the case where a file
named uploadedName was uploaded: the file is saved under the DOC_PATH
directory "./eggs" and create_or_load_vector_db is called with that saved
path as file_path and the uploaded file's name as the collection name. -/
def upload_and_process_pdf (env : Env) (st : VState) (uploadedName : String) :
    VState × Option ChromaHandle :=
  create_or_load_vector_db env st ("./eggs/" ++ uploadedName) uploadedName

/-- The fixed instruction text of the query_prompt template in retriever.py,
up to the {question} placeholder (the template's only input variable). -/
def queryInstruction : String :=
  "You are an AI language model assistant. Your task is to generate five\n        different versions of the given user question to retrieve relevant documents from\n        a vector database. By generating multiple perspectives on the user question, your\n        goal is to help the user overcome some of the limitations of the distance-based\n        similarity search. Provide these alternative questions separated by newlines.\n        Original question: "

/-- The query_prompt PromptTemplate literal from src/retriever.py (identical
in src/doc_assist/retriever.py). -/
def queryPromptTemplate : String :=
  queryInstruction ++ "{question}"

/-- Formatting the query prompt: the question is substituted for the
{question} placeholder at the end of the fixed instruction text. -/
def fillQueryPrompt (question : String) : String :=
  queryInstruction ++ question

/-- Modelled from the spec: the splitting of the model's reply into query
variants happens inside langchain's MultiQueryRetriever (its line-list output
parsing), which is not under src/.  The spec says the raw text is split on
line breaks and blank lines are discarded. -/
def parseQueryLines (s : String) : List String :=
  (s.splitOn "\n").filter (fun l => l != "")

/-- The query-expansion step of the multi-query retriever: submit the question
to the language model under the fixed instruction prompt and parse the reply
into the Query Variant Set. -/
def generateQueries (llm : String → String) (question : String) : List String :=
  parseQueryLines (llm (fillQueryPrompt question))

/-- Modelled from the spec: the merge-and-deduplicate of per-variant search
results happens inside langchain's MultiQueryRetriever (unique_union), which
is not under src/.  The spec says the merged lists are deduplicated by chunk
identity, keeping the first-seen occurrence and preserving first-seen order:
the head of the merged list is kept and every later duplicate of it is
removed before deduplicating the rest. -/
def dedupFirstSeen : List Chunk → List Chunk
  | [] => []
  | c :: cs => c :: dedupFirstSeen (cs.filter (fun x => x != c))
termination_by l => l.length
decreasing_by
  exact Nat.lt_succ_of_le (List.length_filter_le _ _)

/-- The merged Retrieved Context: concatenate the per-variant result lists in
arrival order and deduplicate by chunk identity, first seen first. -/
def unique_union (resultLists : List (List Chunk)) : List Chunk :=
  dedupFirstSeen resultLists.flatten

/-- A language-model reply as the chain sees it: the plain-text content plus
whatever structured wrapper data the model API attaches (discarded by
StrOutputParser). -/
structure LLMMsg where
  content : String
  extraData : Nat
deriving DecidableEq

/-- The fixed prompt template of chain.py, split at its two placeholders:
the text before {context}. -/
def ragTemplatePre : String :=
  "Answer the question based ONLY on the following context:\n    "

/-- The fixed prompt template of chain.py: the text between {context} and
{question}. -/
def ragTemplateMid : String :=
  "\n    Question: "

/-- The fixed prompt template of chain.py: the text after {question}. -/
def ragTemplatePost : String :=
  "\n    "

/-- The template literal passed to ChatPromptTemplate.from_template in
src/chain.py and src/doc_assist/chain.py. -/
def ragTemplate : String :=
  ragTemplatePre ++ "{context}" ++ ragTemplateMid ++ "{question}" ++ ragTemplatePost

/-- Formatting the chain prompt: substitute the context block and the
question into the two placeholders of the fixed template. -/
def fillRagTemplate (context question : String) : String :=
  ragTemplatePre ++ context ++ ragTemplateMid ++ question ++ ragTemplatePost

/-- Modelled from the spec: how the retrieved chunk list is rendered into the
{context} placeholder is decided inside langchain's prompt formatting, which
is not under src/.  The spec says the text of every chunk is concatenated
into a single context block in the order delivered by the retriever. -/
def formatContext (docs : List Chunk) : String :=
  String.join (docs.map Chunk.text)

namespace DocAssist

/-- create_chain from src/doc_assist/chain.py: validate that neither the
retriever nor the language model is None (raising ValueError otherwise), then
compose the pipeline: fan out the input question to the retriever and a
passthrough, format the fixed prompt template with the retrieved context and
the question, invoke the language model on the filled prompt, and parse the
reply to its plain string content. -/
def create_chain (retriever : Option (String → List Chunk))
    (llm : Option (String → LLMMsg)) : Except PyErr (String → String) :=
  match retriever with
  | none => Except.error PyErr.valueError
  | some r =>
      match llm with
      | none => Except.error PyErr.valueError
      | some l =>
          Except.ok fun question =>
            (l (fillRagTemplate (formatContext (r question)) question)).content

end DocAssist

section DedupLemmas

/-- Deduplication neither invents nor loses chunks: membership is preserved. -/
theorem mem_dedupFirstSeen (l : List Chunk) (x : Chunk) :
    x ∈ dedupFirstSeen l ↔ x ∈ l := by
  match l with
  | [] => simp [dedupFirstSeen]
  | c :: cs =>
    rw [dedupFirstSeen]
    constructor
    · intro hx
      rcases List.mem_cons.mp hx with h | h
      · exact h ▸ List.mem_cons_self _ _
      · have hxf := (mem_dedupFirstSeen (cs.filter (fun y => y != c)) x).mp h
        exact List.mem_cons_of_mem _ (List.mem_of_mem_filter hxf)
    · intro hx
      rcases List.mem_cons.mp hx with h | h
      · exact h ▸ List.mem_cons_self _ _
      · by_cases hxc : x = c
        · exact hxc ▸ List.mem_cons_self _ _
        · refine List.mem_cons_of_mem _ ?_
          refine (mem_dedupFirstSeen _ x).mpr ?_
          refine List.mem_filter.mpr ⟨h, ?_⟩
          simpa using hxc
termination_by l.length
decreasing_by
  all_goals
    simp only [List.length_cons]
    exact Nat.lt_succ_of_le (List.length_filter_le _ _)

/-- The deduplicated list has no duplicates. -/
theorem nodup_dedupFirstSeen (l : List Chunk) : (dedupFirstSeen l).Nodup := by
  match l with
  | [] => simp [dedupFirstSeen]
  | c :: cs =>
    rw [dedupFirstSeen]
    refine List.nodup_cons.mpr ⟨?_, nodup_dedupFirstSeen _⟩
    intro hc
    have hcf := (mem_dedupFirstSeen _ _).mp hc
    simpa using (List.mem_filter.mp hcf).2
termination_by l.length
decreasing_by
  all_goals
    simp only [List.length_cons]
    exact Nat.lt_succ_of_le (List.length_filter_le _ _)

/-- The deduplicated list is a sublist of the merged list: the surviving
occurrences appear in their original relative order. -/
theorem dedupFirstSeen_sublist (l : List Chunk) :
    (dedupFirstSeen l).Sublist l := by
  match l with
  | [] => simp [dedupFirstSeen]
  | c :: cs =>
    rw [dedupFirstSeen]
    exact List.Sublist.cons₂ c
      ((dedupFirstSeen_sublist _).trans (List.filter_sublist _))
termination_by l.length
decreasing_by
  all_goals
    simp only [List.length_cons]
    exact Nat.lt_succ_of_le (List.length_filter_le _ _)

/-- Filtering preserves the relative order of first occurrences of retained
elements. -/
theorem indexOf_filter_lt (p : Chunk → Bool) (l : List Chunk) (a b : Chunk)
    (ha : a ∈ l.filter p) (hb : b ∈ l.filter p)
    (hab : (l.filter p).indexOf a < (l.filter p).indexOf b) :
    l.indexOf a < l.indexOf b := by
  induction l with
  | nil => simp at ha
  | cons h t ih =>
    by_cases hp : p h
    · rw [List.filter_cons_of_pos hp] at ha hb hab
      by_cases hah : a = h
      · subst hah
        by_cases hba : b = a
        · subst hba
          exact absurd hab (lt_irrefl _)
        · rw [List.indexOf_cons_self, List.indexOf_cons_ne _ (Ne.symm hba)]
          exact Nat.succ_pos _
      · by_cases hbh : b = h
        · subst hbh
          rw [List.indexOf_cons_self] at hab
          exact absurd hab (Nat.not_lt_zero _)
        · have ha' : a ∈ t.filter p := by
            rcases List.mem_cons.mp ha with h1 | h1
            · exact absurd h1 hah
            · exact h1
          have hb' : b ∈ t.filter p := by
            rcases List.mem_cons.mp hb with h1 | h1
            · exact absurd h1 hbh
            · exact h1
          rw [List.indexOf_cons_ne _ (Ne.symm hah), List.indexOf_cons_ne _ (Ne.symm hbh)] at hab
          rw [List.indexOf_cons_ne _ (Ne.symm hah), List.indexOf_cons_ne _ (Ne.symm hbh)]
          exact Nat.succ_lt_succ (ih ha' hb' (Nat.lt_of_succ_lt_succ hab))
    · rw [List.filter_cons_of_neg hp] at ha hb hab
      have hah : a ≠ h := by
        intro hx
        subst hx
        exact hp (List.mem_filter.mp ha).2
      have hbh : b ≠ h := by
        intro hx
        subst hx
        exact hp (List.mem_filter.mp hb).2
      rw [List.indexOf_cons_ne _ (Ne.symm hah), List.indexOf_cons_ne _ (Ne.symm hbh)]
      exact Nat.succ_lt_succ (ih ha hb hab)

/-- The deduplicated list is sorted by the position of each chunk's first
occurrence in the merged list: first seen comes first. -/
theorem dedupFirstSeen_pairwise_indexOf (l : List Chunk) :
    List.Pairwise (fun a b => l.indexOf a < l.indexOf b) (dedupFirstSeen l) := by
  match l with
  | [] => simp [dedupFirstSeen]
  | c :: cs =>
    rw [dedupFirstSeen]
    refine List.pairwise_cons.mpr ⟨?_, ?_⟩
    · intro b hb
      have hbf := (mem_dedupFirstSeen _ _).mp hb
      have hbc : b ≠ c := by simpa using (List.mem_filter.mp hbf).2
      rw [List.indexOf_cons_self, List.indexOf_cons_ne _ (Ne.symm hbc)]
      exact Nat.succ_pos _
    · have hrec := dedupFirstSeen_pairwise_indexOf (cs.filter (fun y => y != c))
      refine List.Pairwise.imp_of_mem ?_ hrec
      intro a b hma hmb hab
      have haf := (mem_dedupFirstSeen _ _).mp hma
      have hbf := (mem_dedupFirstSeen _ _).mp hmb
      have hac : a ≠ c := by simpa using (List.mem_filter.mp haf).2
      have hbc : b ≠ c := by simpa using (List.mem_filter.mp hbf).2
      have hcs := indexOf_filter_lt _ cs a b haf hbf hab
      rw [List.indexOf_cons_ne _ (Ne.symm hac), List.indexOf_cons_ne _ (Ne.symm hbc)]
      exact Nat.succ_lt_succ hcs
termination_by l.length
decreasing_by
  all_goals
    simp only [List.length_cons]
    exact Nat.lt_succ_of_le (List.length_filter_le _ _)

end DedupLemmas

section VectorDbLemmas

/-- A build-or-load call that returns None leaves the state untouched: no
directory is created, no collection is persisted, no embedding is counted. -/
theorem create_or_load_none_state_eq (env : Env) (st : VState)
    (fp name : String) (st' : VState)
    (h : create_or_load_vector_db env st fp name = (st', none)) : st' = st := by
  unfold create_or_load_vector_db at h
  split at h
  · split at h
    · exact absurd (congrArg Prod.snd h) (by simp)
    · split at h
      · exact (congrArg Prod.fst h).symm
      · split at h
        · exact (congrArg Prod.fst h).symm
        · split at h
          · exact absurd (congrArg Prod.snd h) (by simp)
          · exact (congrArg Prod.fst h).symm
  · exact (congrArg Prod.fst h).symm

/-- When the pull succeeds and the persist directory already exists, the call
opens the persisted collection: it returns the handle and leaves the state
(and hence the embedding-work counter) exactly as it was. -/
theorem create_or_load_loads_existing (env : Env) (st : VState)
    (fp name : String)
    (hp : env.pullOk = true)
    (hc : st.dirs.contains (persistDir name) = true) :
    create_or_load_vector_db env st fp name
      = (st, some ⟨name, persistDir name⟩) := by
  unfold create_or_load_vector_db
  rw [if_pos hp, if_pos hc]

/-- Whenever a build-or-load call returns a handle, the persist directory for
that collection name is recorded in the resulting state. -/
theorem create_or_load_some_dir_recorded (env : Env) (st : VState)
    (fp name : String) (st' : VState) (hdl : ChromaHandle)
    (h : create_or_load_vector_db env st fp name = (st', some hdl)) :
    st'.dirs.contains (persistDir name) = true
    ∧ hdl = ⟨name, persistDir name⟩ := by
  unfold create_or_load_vector_db at h
  split at h
  · split at h
    · rw [Prod.mk.injEq] at h
      obtain ⟨h1, h2⟩ := h
      subst h1
      injection h2 with h3
      exact ⟨by assumption, h3.symm⟩
    · split at h
      · exact absurd (congrArg Prod.snd h) (by simp)
      · split at h
        · exact absurd (congrArg Prod.snd h) (by simp)
        · split at h
          · rw [Prod.mk.injEq] at h
            obtain ⟨h1, h2⟩ := h
            subst h1
            injection h2 with h3
            exact ⟨by simp, h3.symm⟩
          · exact absurd (congrArg Prod.snd h) (by simp)
  · exact absurd (congrArg Prod.snd h) (by simp)

end VectorDbLemmas

section WitnessFixtures

/-- A sample document used by the concrete witnesses. -/
def sampleDoc : Document :=
  { text := "The deductible is 500.", source := "sample.pdf", page := 1 }

/-- An environment in which every call succeeds and the loader yields one
sample document. -/
def envOk : Env :=
  { fsExists := fun _ => true, loaderLoad := fun _ => Except.ok [sampleDoc],
    pullOk := true, embedOk := true }

/-- An environment whose filesystem contains no files. -/
def envMissing : Env :=
  { fsExists := fun _ => false, loaderLoad := fun _ => Except.ok [],
    pullOk := true, embedOk := true }

/-- The empty vector-store state: nothing persisted, no embedding work done. -/
def stEmpty : VState := { dirs := [], collections := [], embedCalls := 0 }

/-- A state in which the collection "sample.pdf" is already persisted. -/
def stLoaded : VState :=
  { dirs := [persistDir "sample.pdf"],
    collections := [("sample.pdf", Utils.split_documents [sampleDoc])],
    embedCalls := 1 }

end WitnessFixtures

section Claims

/-- Claim C1: when a persisted vector store already exists at the resolved
persist location, create_or_load_vector_db returns a handle opened over that
persisted state with the whole state — persisted directories, collections and
the embedding-work counter — unchanged, so no ingestion, chunking or embedding
work happens; consequently after any call that returned a handle, a second
call with the same vector_store_name, any other file path and any other
environment (so even a changed source PDF; the embedding-model pull still
succeeding) returns the first call's state unchanged: embedding work happens
at most once and the persisted collection is never rebuilt. -/
theorem C1_create_or_load_idempotent
    (env env2 : Env) (st st1 : VState) (fp fp2 name : String)
    (r1 : Option ChromaHandle)
    (hp : env.pullOk = true) (hp2 : env2.pullOk = true)
    (h1 : create_or_load_vector_db env st fp name = (st1, r1))
    (hs : r1.isSome = true) :
    create_or_load_vector_db env2 st1 fp2 name
      = (st1, some ⟨name, persistDir name⟩)
    ∧ (st.dirs.contains (persistDir name) = true →
        st1 = st ∧ r1 = some ⟨name, persistDir name⟩) := by
  obtain ⟨hdl, hr⟩ := Option.isSome_iff_exists.mp hs
  subst hr
  have hrec := create_or_load_some_dir_recorded env st fp name st1 hdl h1
  constructor
  · exact create_or_load_loads_existing env2 st1 fp2 name hp2 hrec.1
  · intro hc
    have hload := create_or_load_loads_existing env st fp name hp hc
    rw [hload] at h1
    rw [Prod.mk.injEq] at h1
    exact ⟨h1.1.symm, h1.2.symm⟩

/-- Witness for C1 at concrete inputs: with the "sample.pdf" collection
already persisted, a call returns the handle with the state unchanged, and a
repeated call with a different file path behaves identically. -/
theorem C1_create_or_load_idempotent_witness :
    create_or_load_vector_db envOk stLoaded "other.pdf" "sample.pdf"
      = (stLoaded, some ⟨"sample.pdf", persistDir "sample.pdf"⟩)
    ∧ (stLoaded.dirs.contains (persistDir "sample.pdf") = true →
        stLoaded = stLoaded
        ∧ (some ⟨"sample.pdf", persistDir "sample.pdf"⟩ : Option ChromaHandle)
            = some ⟨"sample.pdf", persistDir "sample.pdf"⟩) :=
  C1_create_or_load_idempotent envOk envOk stLoaded stLoaded
    "./eggs/sample.pdf" "other.pdf" "sample.pdf"
    (some ⟨"sample.pdf", persistDir "sample.pdf"⟩) rfl rfl rfl rfl

/-- Claim C2: when no collection is persisted yet for the name and ingestion
fails — the path does not exist, or the loader yields zero documents — the
build returns the None failure value and aborts before persisting anything;
moreover every call that returns None leaves the state exactly as it was, so
no failing build ever creates a persist directory or a partial collection. -/
theorem C2_failing_build_no_persist
    (env : Env) (st : VState) (fp name : String)
    (hdir : st.dirs.contains (persistDir name) = false)
    (hfail : env.fsExists fp = false ∨ env.loaderLoad fp = Except.ok []) :
    create_or_load_vector_db env st fp name = (st, none)
    ∧ ∀ (env2 : Env) (st2 : VState) (fp2 name2 : String) (st3 : VState),
        create_or_load_vector_db env2 st2 fp2 name2 = (st3, none) →
        st3 = st2 := by
  constructor
  · have hing : Utils.ingest_pdf env fp = Except.ok [] := by
      unfold Utils.ingest_pdf
      rcases hfail with h | h
      · rw [if_neg (by simp [h])]
      · by_cases he : env.fsExists fp
        · rw [if_pos he]
          exact h
        · rw [if_neg he]
    unfold create_or_load_vector_db
    by_cases hp : env.pullOk
    · rw [if_pos hp, if_neg (by rw [hdir]; exact Bool.false_ne_true), hing]
      simp
    · rw [if_neg hp]
  · intro env2 st2 fp2 name2 st3 h
    exact create_or_load_none_state_eq env2 st2 fp2 name2 st3 h

/-- Witness for C2 at concrete inputs: with nothing persisted and a
nonexistent path, the build returns None and the state is untouched. -/
theorem C2_failing_build_no_persist_witness :
    create_or_load_vector_db envMissing stEmpty "missing.pdf" "sample.pdf"
      = (stEmpty, none)
    ∧ ∀ (env2 : Env) (st2 : VState) (fp2 name2 : String) (st3 : VState),
        create_or_load_vector_db env2 st2 fp2 name2 = (st3, none) →
        st3 = st2 :=
  C2_failing_build_no_persist envMissing stEmpty "missing.pdf" "sample.pdf"
    rfl (Or.inl rfl)

/-- Claim C9: the persist location is resolved deterministically as
chroma_db/<vector_store_name>, a function of the collection name alone; once
the persisted directory exists, the call's result does not depend on the
file_path argument or on the environment (so not on the file's content): two
runs with the same name and different file paths return equal results and
leave the state unchanged; and the upload path keys the collection by the
uploaded file's name alone, calling build-or-load with the saved path
./eggs/<name> and collection name <name>. -/
theorem C9_collection_keyed_by_name
    (env env2 : Env) (st : VState) (fp fp2 name : String)
    (hp : env.pullOk = true) (hp2 : env2.pullOk = true)
    (hdir : st.dirs.contains (persistDir name) = true) :
    persistDir name = "chroma_db/" ++ name
    ∧ create_or_load_vector_db env st fp name
        = create_or_load_vector_db env2 st fp2 name
    ∧ (create_or_load_vector_db env st fp name).1 = st
    ∧ ∀ (e : Env) (s : VState) (n : String),
        upload_and_process_pdf e s n
          = create_or_load_vector_db e s ("./eggs/" ++ n) n := by
  refine ⟨rfl, ?_, ?_, fun _ _ _ => rfl⟩
  · rw [create_or_load_loads_existing env st fp name hp hdir,
        create_or_load_loads_existing env2 st fp2 name hp2 hdir]
  · rw [create_or_load_loads_existing env st fp name hp hdir]

/-- Witness for C9 at concrete inputs: with "sample.pdf" persisted, two calls
whose file paths and environments differ entirely return the same result. -/
theorem C9_collection_keyed_by_name_witness :
    persistDir "sample.pdf" = "chroma_db/" ++ "sample.pdf"
    ∧ create_or_load_vector_db envOk stLoaded "a.pdf" "sample.pdf"
        = create_or_load_vector_db envMissing stLoaded "b.pdf" "sample.pdf"
    ∧ (create_or_load_vector_db envOk stLoaded "a.pdf" "sample.pdf").1
        = stLoaded
    ∧ ∀ (e : Env) (s : VState) (n : String),
        upload_and_process_pdf e s n
          = create_or_load_vector_db e s ("./eggs/" ++ n) n :=
  C9_collection_keyed_by_name envOk envMissing stLoaded "a.pdf" "b.pdf"
    "sample.pdf" rfl rfl rfl

/-- Claim C10: for a path that does not exist on disk, ingest_pdf returns the
empty list and raises nothing (in particular no FileNotFoundError, despite
its docstring) in both revisions; and in the doc_assist revision a loader
failure of kind IOError or ValueError likewise yields the empty list instead
of propagating. -/
theorem C10_ingest_missing_path_returns_empty
    (env : Env) (p : String) (h : env.fsExists p = false) :
    Utils.ingest_pdf env p = Except.ok []
    ∧ DocAssist.ingest_pdf env p = Except.ok []
    ∧ ∀ (env2 : Env) (p2 : String) (e : PyErr),
        (e = PyErr.ioError ∨ e = PyErr.valueError) →
        env2.loaderLoad p2 = Except.error e →
        DocAssist.ingest_pdf env2 p2 = Except.ok [] := by
  refine ⟨?_, ?_, ?_⟩
  · unfold Utils.ingest_pdf
    rw [if_neg (by simp [h])]
  · unfold DocAssist.ingest_pdf
    rw [if_neg (by simp [h])]
  · intro env2 p2 e he hl
    unfold DocAssist.ingest_pdf
    by_cases h2 : env2.fsExists p2
    · rw [if_pos h2, hl]
      exact if_pos he
    · rw [if_neg h2]

/-- Witness for C10 at concrete inputs: in the fileless environment both
revisions of ingest_pdf return the empty list. -/
theorem C10_ingest_missing_path_returns_empty_witness :
    Utils.ingest_pdf envMissing "nope.pdf" = Except.ok []
    ∧ DocAssist.ingest_pdf envMissing "nope.pdf" = Except.ok []
    ∧ ∀ (env2 : Env) (p2 : String) (e : PyErr),
        (e = PyErr.ioError ∨ e = PyErr.valueError) →
        env2.loaderLoad p2 = Except.error e →
        DocAssist.ingest_pdf env2 p2 = Except.ok [] :=
  C10_ingest_missing_path_returns_empty envMissing "nope.pdf" rfl

/-- A language model stub for the witnesses: echoes the prompt as content
with a nonzero structured wrapper value. -/
def wLLM : String → LLMMsg := fun p => { content := p, extraData := 7 }

/-- A retriever stub for the witnesses: returns two chunks for any question. -/
def wRetrieverTwo : String → List Chunk := fun _ =>
  [{ text := "The deductible is 500.", source := "sample.pdf", page := 1 },
   { text := "Coverage begins May 1.", source := "sample.pdf", page := 2 }]

/-- The chain the validated construction yields for the witness stubs. -/
def wChain : String → String := fun q =>
  (wLLM (fillRagTemplate (formatContext (wRetrieverTwo q)) q)).content

/-- A query-expansion language model stub: replies with three non-blank lines
and one blank line. -/
def wQueryLLM : String → String := fun _ => "v one\n\nv two\nv three"

/-- Witness chunk X, returned by two different query variants. -/
def chunkX : Chunk := { text := "X", source := "s", page := 0 }

/-- Witness chunk Y. -/
def chunkY : Chunk := { text := "Y", source := "s", page := 0 }

/-- Witness chunk Z. -/
def chunkZ : Chunk := { text := "Z", source := "s", page := 0 }

/-- Claim C3: constructing the answer chain with a null retriever or a null
language model fails with the ValueError validation failure (never an ok
chain); construction in the embedding is pure, so the failing construction
performs no language-model or retriever call. -/
theorem C3_create_chain_validates
    (retriever : Option (String → List Chunk)) (llm : Option (String → LLMMsg))
    (h : retriever = none ∨ llm = none) :
    DocAssist.create_chain retriever llm = Except.error PyErr.valueError := by
  rcases h with h | h
  · subst h
    rfl
  · subst h
    cases retriever <;> rfl

/-- Witness for C3 at concrete inputs: a null retriever with a present
language model is rejected with ValueError. -/
theorem C3_create_chain_validates_witness :
    DocAssist.create_chain none (some wLLM) = Except.error PyErr.valueError :=
  C3_create_chain_validates none (some wLLM) (Or.inl rfl)

/-- Claim C6: a successfully constructed chain, on any question, concatenates
the retrieved chunks' texts in retriever-delivered order into one context
block, substitutes the block and the question into the fixed prompt template
(whose instruction restricts the answer to ONLY the given context), submits
the filled prompt to the generation language model, and returns the reply's
plain content with the structured wrapper discarded. -/
theorem C6_chain_composes_prompt
    (r : String → List Chunk) (l : String → LLMMsg) (ch : String → String)
    (h : DocAssist.create_chain (some r) (some l) = Except.ok ch)
    (question : String) :
    ch question
      = (l (ragTemplatePre ++ String.join ((r question).map Chunk.text)
            ++ ragTemplateMid ++ question ++ ragTemplatePost)).content
    ∧ ragTemplate
        = "Answer the question based ONLY on the following context:\n    {context}\n    Question: {question}\n    " := by
  constructor
  · simp only [DocAssist.create_chain] at h
    injection h with hfun
    rw [← hfun]
    rfl
  · rfl

/-- Witness for C6 at concrete inputs: the stub chain on a concrete question
produces exactly the filled template submitted to the stub model. -/
theorem C6_chain_composes_prompt_witness :
    wChain "What is the deductible?"
      = (wLLM (ragTemplatePre
            ++ String.join ((wRetrieverTwo "What is the deductible?").map Chunk.text)
            ++ ragTemplateMid ++ "What is the deductible?" ++ ragTemplatePost)).content
    ∧ ragTemplate
        = "Answer the question based ONLY on the following context:\n    {context}\n    Question: {question}\n    " :=
  C6_chain_composes_prompt wRetrieverTwo wLLM wChain rfl "What is the deductible?"

/-- Claim C4: every chunk produced by split_documents has text of length at
most the configured maximum 1200; for every text t (in particular for the
text of every document handed to split_documents), consecutive chunks of t
share 300 characters of overlapping context (the final 300 characters of a
chunk are exactly the first 300 of the next); a document whose text is no
longer than the maximum yields exactly one chunk carrying the full text; and
an empty input sequence yields an empty output sequence. -/
theorem C4_chunking_contract (docs : List Document) (d : Document)
    (t : List Char)
    (hshort : d.text.length ≤ CHUNK_SIZE) :
    (∀ c ∈ Utils.split_documents docs, c.text.length ≤ CHUNK_SIZE)
    ∧ List.Chain'
        (fun a b => a.drop (CHUNK_SIZE - CHUNK_OVERLAP) = b.take CHUNK_OVERLAP
          ∧ (a.drop (CHUNK_SIZE - CHUNK_OVERLAP)).length = CHUNK_OVERLAP)
        (splitText CHUNK_SIZE CHUNK_OVERLAP t)
    ∧ Utils.split_documents [d]
        = [{ text := d.text, source := d.source, page := d.page }]
    ∧ Utils.split_documents [] = [] := by
  have hco : CHUNK_OVERLAP < CHUNK_SIZE := by decide
  refine ⟨?_, splitText_chain_overlap _ _ hco t, ?_, rfl⟩
  · intro c hc
    unfold Utils.split_documents at hc
    rw [List.mem_flatten] at hc
    obtain ⟨L, hL, hcL⟩ := hc
    rw [List.mem_map] at hL
    obtain ⟨dd, _, hLdd⟩ := hL
    subst hLdd
    rw [List.mem_map] at hcL
    obtain ⟨cc, hcc, hccc⟩ := hcL
    subst hccc
    exact splitText_length_le CHUNK_SIZE CHUNK_OVERLAP hco dd.text.data cc hcc
  · have hlen : d.text.data.length ≤ CHUNK_SIZE := hshort
    unfold Utils.split_documents
    simp only [List.map_cons, List.map_nil, List.flatten_cons, List.flatten_nil,
      List.append_nil]
    rw [splitText_short CHUNK_SIZE CHUNK_OVERLAP d.text.data hlen]
    rfl

/-- Witness for C4 at concrete inputs: the overlap chain is instantiated at a
3000-character text, which splits into three chunks with two genuinely
overlapping consecutive pairs, while the 22-character sample document is
short and yields exactly its own single chunk. -/
theorem C4_chunking_contract_witness :
    (∀ c ∈ Utils.split_documents [sampleDoc], c.text.length ≤ CHUNK_SIZE)
    ∧ List.Chain'
        (fun a b => a.drop (CHUNK_SIZE - CHUNK_OVERLAP) = b.take CHUNK_OVERLAP
          ∧ (a.drop (CHUNK_SIZE - CHUNK_OVERLAP)).length = CHUNK_OVERLAP)
        (splitText CHUNK_SIZE CHUNK_OVERLAP (List.replicate 3000 'a'))
    ∧ Utils.split_documents [sampleDoc]
        = [{ text := sampleDoc.text, source := sampleDoc.source,
             page := sampleDoc.page }]
    ∧ Utils.split_documents [] = [] :=
  C4_chunking_contract [sampleDoc] sampleDoc (List.replicate 3000 'a')
    (by decide)

/-- Claim C5: the merged Retrieved Context contains each chunk exactly once
even when several query variants return it: membership in the merged context
matches membership in the concatenation of the per-variant result lists,
every retained chunk occurs exactly once, and the context preserves
first-seen order — it is strictly sorted by each chunk's first-occurrence
position in the concatenated results. -/
theorem C5_retrieved_context_dedup (resultLists : List (List Chunk)) :
    (∀ c : Chunk, c ∈ unique_union resultLists ↔ c ∈ resultLists.flatten)
    ∧ (∀ c : Chunk, c ∈ resultLists.flatten →
        (unique_union resultLists).count c = 1)
    ∧ List.Pairwise
        (fun a b => resultLists.flatten.indexOf a < resultLists.flatten.indexOf b)
        (unique_union resultLists) := by
  refine ⟨fun c => mem_dedupFirstSeen _ c, ?_, dedupFirstSeen_pairwise_indexOf _⟩
  intro c hc
  exact List.count_eq_one_of_mem (nodup_dedupFirstSeen _)
    ((mem_dedupFirstSeen _ c).mpr hc)

/-- Witness for C5 at concrete inputs: chunk X returned by both variants
appears exactly once in the merged context. -/
theorem C5_retrieved_context_dedup_witness :
    (∀ c : Chunk, c ∈ unique_union [[chunkX, chunkY], [chunkX, chunkZ]]
        ↔ c ∈ ([[chunkX, chunkY], [chunkX, chunkZ]] : List (List Chunk)).flatten)
    ∧ (∀ c : Chunk,
        c ∈ ([[chunkX, chunkY], [chunkX, chunkZ]] : List (List Chunk)).flatten →
        (unique_union [[chunkX, chunkY], [chunkX, chunkZ]]).count c = 1)
    ∧ List.Pairwise
        (fun a b =>
          ([[chunkX, chunkY], [chunkX, chunkZ]] : List (List Chunk)).flatten.indexOf a
            < ([[chunkX, chunkY], [chunkX, chunkZ]] : List (List Chunk)).flatten.indexOf b)
        (unique_union [[chunkX, chunkY], [chunkX, chunkZ]]) :=
  C5_retrieved_context_dedup [[chunkX, chunkY], [chunkX, chunkZ]]

/-- Claim C7: the retriever submits the question to the language model under
the fixed instruction prompt — whose instruction asks to generate five
versions of the question, separated by newlines, and which ends with the
original question — and the reply is parsed by splitting on line breaks with
blank lines discarded: the variant set never contains a blank, every variant
is a line of the reply in reply order (nothing is ever padded in), and every
non-blank line is kept, however few there are; parsing is a total function,
so a short reply never raises. -/
theorem C7_query_expansion (llm : String → String) (question : String) :
    fillQueryPrompt question = queryInstruction ++ question
    ∧ (∃ a b : String, queryInstruction = a ++ "generate five" ++ b)
    ∧ (∃ a b : String, queryInstruction = a ++ "separated by newlines" ++ b)
    ∧ "" ∉ generateQueries llm question
    ∧ (generateQueries llm question).Sublist
        ((llm (fillQueryPrompt question)).splitOn "\n")
    ∧ ∀ v ∈ (llm (fillQueryPrompt question)).splitOn "\n",
        v ≠ "" → v ∈ generateQueries llm question := by
  refine ⟨rfl,
    ⟨"You are an AI language model assistant. Your task is to ",
     "\n        different versions of the given user question to retrieve relevant documents from\n        a vector database. By generating multiple perspectives on the user question, your\n        goal is to help the user overcome some of the limitations of the distance-based\n        similarity search. Provide these alternative questions separated by newlines.\n        Original question: ",
     by rfl⟩,
    ⟨"You are an AI language model assistant. Your task is to generate five\n        different versions of the given user question to retrieve relevant documents from\n        a vector database. By generating multiple perspectives on the user question, your\n        goal is to help the user overcome some of the limitations of the distance-based\n        similarity search. Provide these alternative questions ",
     ".\n        Original question: ",
     by rfl⟩, ?_, ?_, ?_⟩
  · intro hmem
    simp only [generateQueries, parseQueryLines] at hmem
    have := (List.mem_filter.mp hmem).2
    simp at this
  · simp only [generateQueries, parseQueryLines]
    exact List.filter_sublist _
  · intro v hv hne
    simp only [generateQueries, parseQueryLines]
    exact List.mem_filter.mpr ⟨hv, by simpa using hne⟩

/-- Witness for C7 at concrete inputs: the stub model replies with three
non-blank lines and one blank line; the parsed variant set keeps exactly the
non-blank lines in order. -/
theorem C7_query_expansion_witness :
    fillQueryPrompt "What is the deductible?"
        = queryInstruction ++ "What is the deductible?"
    ∧ (∃ a b : String, queryInstruction = a ++ "generate five" ++ b)
    ∧ (∃ a b : String, queryInstruction = a ++ "separated by newlines" ++ b)
    ∧ "" ∉ generateQueries wQueryLLM "What is the deductible?"
    ∧ (generateQueries wQueryLLM "What is the deductible?").Sublist
        ((wQueryLLM (fillQueryPrompt "What is the deductible?")).splitOn "\n")
    ∧ ∀ v ∈ (wQueryLLM (fillQueryPrompt "What is the deductible?")).splitOn "\n",
        v ≠ "" → v ∈ generateQueries wQueryLLM "What is the deductible?" :=
  C7_query_expansion wQueryLLM "What is the deductible?"

/-- Chunk construction and text extraction over a list of raw texts cancel. -/
theorem map_text_data_of_chunks (L : List (List Char)) (src : String) (pg : Nat) :
    (L.map fun cc =>
        ({ text := String.mk cc, source := src, page := pg } : Chunk)).map
      (fun c => c.text.data) = L := by
  induction L with
  | nil => rfl
  | cons x xs ih => simp [ih]

/-- Claim C8: the chunking is lossless up to the declared overlap —
concatenating the chunks of any text with the 300-character overlap removed
from every chunk after the first reconstructs the input exactly, both at the
level of the splitter on raw text and for the chunk texts produced by
split_documents on a document. -/
theorem C8_chunking_lossless (s : List Char) (d : Document) :
    joinChunksWithOverlapRemoved CHUNK_OVERLAP
        (splitText CHUNK_SIZE CHUNK_OVERLAP s) = s
    ∧ joinChunksWithOverlapRemoved CHUNK_OVERLAP
        ((Utils.split_documents [d]).map fun c => c.text.data) = d.text.data := by
  have hco : CHUNK_OVERLAP < CHUNK_SIZE := by decide
  refine ⟨splitText_reconstruct _ _ hco s, ?_⟩
  have hmap : (Utils.split_documents [d]).map (fun c => c.text.data)
      = splitText CHUNK_SIZE CHUNK_OVERLAP d.text.data := by
    unfold Utils.split_documents
    simp only [List.map_cons, List.map_nil, List.flatten_cons, List.flatten_nil,
      List.append_nil]
    exact map_text_data_of_chunks _ _ _
  rw [hmap]
  exact splitText_reconstruct _ _ hco _

/-- Witness for C8 at concrete inputs: a 3000-character text (three chunks)
and the sample document both reconstruct exactly. -/
theorem C8_chunking_lossless_witness :
    joinChunksWithOverlapRemoved CHUNK_OVERLAP
        (splitText CHUNK_SIZE CHUNK_OVERLAP (List.replicate 3000 'a'))
      = List.replicate 3000 'a'
    ∧ joinChunksWithOverlapRemoved CHUNK_OVERLAP
        ((Utils.split_documents [sampleDoc]).map fun c => c.text.data)
      = sampleDoc.text.data :=
  C8_chunking_lossless (List.replicate 3000 'a') sampleDoc

end Claims

end HandsOnOllama
